import Mathlib

/-!
Verification development for the docstring-format-checker repository.

The repository's core module (the `DocstringChecker` engine) is not part of
the distributed sources here; only its tests, documentation and utility
scripts are.  Following the specification document, the data model, section
parser, section-type validators, cross-cutting validator and the
file/directory driver are therefore modelled from the spec (sections 3-7),
and every definition below whose doc comment starts with "Modelled from the
spec:" is such a model.  Docstrings are processed as lists of characters so
that all functions are structurally recursive and kernel-evaluable.
-/

namespace DFC

/-! ## Character and string utilities -/

/-- Lower-case an ASCII letter; other characters are unchanged. -/
def lowerChar (c : Char) : Char :=
  match c with
  | 'A' => 'a' | 'B' => 'b' | 'C' => 'c' | 'D' => 'd' | 'E' => 'e'
  | 'F' => 'f' | 'G' => 'g' | 'H' => 'h' | 'I' => 'i' | 'J' => 'j'
  | 'K' => 'k' | 'L' => 'l' | 'M' => 'm' | 'N' => 'n' | 'O' => 'o'
  | 'P' => 'p' | 'Q' => 'q' | 'R' => 'r' | 'S' => 's' | 'T' => 't'
  | 'U' => 'u' | 'V' => 'v' | 'W' => 'w' | 'X' => 'x' | 'Y' => 'y'
  | 'Z' => 'z' | c => c

/-- Upper-case an ASCII letter; other characters are unchanged. -/
def upperChar (c : Char) : Char :=
  match c with
  | 'a' => 'A' | 'b' => 'B' | 'c' => 'C' | 'd' => 'D' | 'e' => 'E'
  | 'f' => 'F' | 'g' => 'G' | 'h' => 'H' | 'i' => 'I' | 'j' => 'J'
  | 'k' => 'K' | 'l' => 'L' | 'm' => 'M' | 'n' => 'N' | 'o' => 'O'
  | 'p' => 'P' | 'q' => 'Q' | 'r' => 'R' | 's' => 'S' | 't' => 'T'
  | 'u' => 'U' | 'v' => 'V' | 'w' => 'W' | 'x' => 'X' | 'y' => 'Y'
  | 'z' => 'Z' | c => c

/-- Lower-case every character of a character list. -/
def lowerL (l : List Char) : List Char := l.map lowerChar

/-- Whitespace test used by the trimming helpers. -/
def isWs (c : Char) : Bool := c == ' ' || c == '\t' || c == '\r'

/-- Drop leading whitespace from a character list. -/
def dropLeadWs : List Char → List Char
  | [] => []
  | c :: t => if isWs c then dropLeadWs t else c :: t

/-- Trim whitespace from both ends of a character list. -/
def trimC (l : List Char) : List Char :=
  dropLeadWs ((dropLeadWs l.reverse).reverse)

/-- Number of leading space characters of a line. -/
def indentOfC : List Char → Nat
  | [] => 0
  | c :: t => if c == ' ' then 1 + indentOfC t else 0

/-- Boolean list-prefix test on character lists. -/
def isPrefixL : List Char → List Char → Bool
  | [], _ => true
  | _ :: _, [] => false
  | p :: ps, c :: cs => p == c && isPrefixL ps cs

/-- Boolean substring test: does `pat` occur contiguously inside `l`? -/
def containsList : List Char → List Char → Bool
  | [], pat => isPrefixL pat []
  | c :: t, pat => isPrefixL pat (c :: t) || containsList t pat

/-- Boolean suffix test on character lists. -/
def endsWithL (l pat : List Char) : Bool := isPrefixL pat.reverse l.reverse

/-- Split a character list at the first occurrence of `c`, which is dropped. -/
def breakOn (c : Char) : List Char → Option (List Char × List Char)
  | [] => none
  | x :: t =>
    if x == c then some ([], t)
    else match breakOn c t with
      | none => none
      | some (a, b) => some (x :: a, b)

/-- Split a character list into lines at newline characters. -/
def splitLinesC : List Char → List (List Char)
  | [] => [[]]
  | c :: t =>
    if c == '\n' then [] :: splitLinesC t
    else match splitLinesC t with
      | [] => [[c]]
      | h :: r => (c :: h) :: r

/-- Accumulator-based splitting of a character list into space-separated words. -/
def wordsAux (acc : List Char) : List Char → List (List Char)
  | [] => if acc.isEmpty then [] else [acc.reverse]
  | c :: t =>
    if c == ' ' then
      if acc.isEmpty then wordsAux [] t else acc.reverse :: wordsAux [] t
    else wordsAux (c :: acc) t

/-- Space-separated words of a character list. -/
def wordsOf (l : List Char) : List (List Char) := wordsAux [] l

/-- Build a string back from a character list. -/
def strOf (l : List Char) : String := ⟨l⟩

/-! ## Data model (spec section 3) -/

/-- Modelled from the spec: the four section content types of `SectionSpec`,
a closed set. -/
inductive SectionType where
  | free_text
  | list_type
  | list_name
  | list_name_and_type
deriving DecidableEq

/-- Modelled from the spec: one configured docstring section.  `admonition`
is `none` for the `False` case and `some s` for a marker string; `prefixStr`
is the admonition marker prefix. -/
structure SectionSpec where
  order : Nat
  name : String
  type : SectionType
  required : Bool
  admonition : Option String
  prefixStr : String
deriving DecidableEq

/-- Modelled from the spec: the `optional_style` vocabulary of `GlobalConfig`. -/
inductive OptionalStyle where
  | silent
  | validate
  | strict
deriving DecidableEq

/-- Modelled from the spec: process-wide immutable global configuration. -/
structure GlobalConfig where
  allow_undefined_sections : Bool := false
  require_docstrings : Bool := true
  check_private : Bool := false
  validate_param_types : Bool := false
  optional_style : OptionalStyle := .validate
deriving DecidableEq

/-- Modelled from the spec: a checker configuration is an already-validated
pair of the section list and the global configuration. -/
structure Config where
  sections : List SectionSpec
  globalConfig : GlobalConfig
deriving DecidableEq

/-- Modelled from the spec: the kind of a checkable definition. -/
inductive DefKind where
  | function
  | method
  | classDef
deriving DecidableEq

/-- Printable name of a definition kind, as used in error messages. -/
def kindName : DefKind → String
  | .function => "function"
  | .method => "method"
  | .classDef => "class"

/-- Modelled from the spec: one checkable unit as delivered by the source
parser — name, kind, decorator names, ordered parameters with optional
type-annotation text (self/cls excluded by the parser boundary), starting
line, docstring text or none, and the async flag.  Lambdas are never
delivered.  Privacy and overload-stub status are derived below. -/
structure Definition where
  kind : DefKind
  name : String
  line : Nat
  decorators : List String
  parameters : List (String × Option String)
  docstring : Option String
  is_async : Bool
deriving DecidableEq

/-- Modelled from the spec: an overload marker decorator is the direct name
`overload` or any module-qualified `<module>.overload`. -/
def isOverloadDecorator (s : String) : Bool :=
  s == "overload" || endsWithL s.toList ".overload".toList

/-- A definition is an overload stub when one of its decorators is an
overload marker. -/
def Definition.isOverloadStub (d : Definition) : Bool :=
  d.decorators.any isOverloadDecorator

/-- A definition is private when its name starts with an underscore. -/
def Definition.isPrivate (d : Definition) : Bool :=
  isPrefixL ['_'] d.name.toList

/-- Modelled from the spec: a docstring error record.  `line_number` 0 means
a file-level error such as a syntax or decode failure. -/
structure DocstringError where
  file_path : String
  line_number : Nat
  item_type : String
  item_name : String
  message : String
deriving DecidableEq

/-! ## Violations (spec section 4.5) -/

/-- Modelled from the spec: the violation taxonomy of the cross-cutting
validator, one constructor per violation family enumerated in spec 4.5. -/
inductive Violation where
  | missingDocstring (kind name : String)
  | wrongDirective (sec found expected : String)
  | colonMissing (header : String)
  | colonForbidden (header : String)
  | badTitleCase (found expected : String)
  | requiresParenTypes (sec lineText : String)
  | undefinedSection (label : String)
  | outOfOrder (name : String)
  | missingRequired (name : String)
  | bothReturnsYields
  | paramTypeMismatch (name sig doc : String)
  | paramTypeMissingDoc (name sig : String)
deriving DecidableEq

/-- Render a violation to its human-readable message text. -/
def Violation.render : Violation → String
  | .missingDocstring k n => "Missing docstring for " ++ k ++ " '" ++ n ++ "'"
  | .wrongDirective s f e =>
      "Section '" ++ s ++ "' uses directive '" ++ f ++ "' but expected '" ++ e ++ "'"
  | .colonMissing h => "Section header '" ++ h ++ "' must end with a colon"
  | .colonForbidden h => "Admonition title in '" ++ h ++ "' must not end with a colon"
  | .badTitleCase f e => "Section header '" ++ f ++ "' should be title case '" ++ e ++ "'"
  | .requiresParenTypes s t =>
      "Section '" ++ s ++ "' requires parenthesized types: '" ++ t ++ "'"
  | .undefinedSection l => "Undefined section: '" ++ l ++ "'"
  | .outOfOrder n => "Section '" ++ n ++ "' is out of order"
  | .missingRequired n => "Missing required section: '" ++ n ++ "'"
  | .bothReturnsYields => "Function cannot have both Returns and Yields sections"
  | .paramTypeMismatch n sg dc =>
      "Parameter '" ++ n ++ "' type mismatch: signature has '" ++ sg ++
        "' but docstring has '" ++ dc ++ "'"
  | .paramTypeMissingDoc n sg =>
      "Parameter '" ++ n ++ "' has type annotation '" ++ sg ++
        "' in signature but no type in docstring"

/-- Ordering-violation discriminator. -/
def Violation.isOrderVio : Violation → Bool
  | .outOfOrder _ => true
  | _ => false

/-- Parameter-type-violation discriminator (both families of spec step 10). -/
def Violation.isParamTypeVio : Violation → Bool
  | .paramTypeMismatch _ _ _ => true
  | .paramTypeMissingDoc _ _ => true
  | _ => false

/-! ## Section parser (spec section 4.3) -/

/-- A structured docstring line: index, indentation, stripped text and
whether the line lies inside (or delimits) a fenced code block. -/
structure DLine where
  idx : Nat
  indent : Nat
  chars : List Char
  inFence : Bool
deriving DecidableEq

/-- Walk raw lines assigning indices and tracking triple-backtick fence
state; a fence delimiter line is itself marked as fenced. -/
def mkDLines (i : Nat) (fence : Bool) : List (List Char) → List DLine
  | [] => []
  | l :: rest =>
    let st := trimC l
    let isDelim := isPrefixL ['`', '`', '`'] st
    let newFence := if isDelim then !fence else fence
    { idx := i, indent := indentOfC l, chars := st, inFence := fence || isDelim } ::
      mkDLines (i + 1) newFence rest

/-- Structured line records of a docstring. -/
def dlinesOf (ds : String) : List DLine := mkDLines 0 false (splitLinesC ds.toList)

/-- Minimum indentation of the non-blank lines, if any. -/
def minIndentAux (acc : Option Nat) : List DLine → Option Nat
  | [] => acc
  | l :: rest =>
    if l.chars.isEmpty then minIndentAux acc rest
    else match acc with
      | none => minIndentAux (some l.indent) rest
      | some b => minIndentAux (some (min b l.indent)) rest

/-- Modelled from the spec: the docstring's own base indentation, used as the
zero reference for header detection. -/
def baseOf (ds : String) : Nat := (minIndentAux none (dlinesOf ds)).getD 0

/-- Characters that exclude a label candidate from header consideration. -/
def hasExcludedChar (lab : List Char) : Bool :=
  lab.any (fun c => c == '.' || c == '/' || c == '\\' || c == '`')

/-- Bare code-language tokens that are never headers. -/
def isCodeLangTok (lab : List Char) : Bool :=
  let low := lowerL lab
  low == "py".toList || low == "python".toList ||
    low == "sh".toList || low == "shell".toList

/-- Modelled from the spec: structured-form header detection for one line.
A candidate is a non-fenced line at base indentation whose stripped text is a
label immediately followed by a colon; empty labels, labels carrying `.`,
`/`, `\` or a backtick, and bare code-language tokens are excluded. -/
def headerLabelAt (base : Nat) (l : DLine) : Option (List Char) :=
  if l.inFence then none
  else if l.indent != base then none
  else match l.chars.reverse with
    | [] => none
    | c :: restRev =>
      if c == ':' then
        if (trimC restRev.reverse).isEmpty then none
        else if hasExcludedChar (trimC restRev.reverse) then none
        else if isCodeLangTok (trimC restRev.reverse) then none
        else some (trimC restRev.reverse)
      else none

/-- All detected header candidates of a docstring, in scan order, with their
line indices. -/
def candsOf (ds : String) : List (List Char × Nat) :=
  (dlinesOf ds).filterMap (fun l =>
    match headerLabelAt (baseOf ds) l with
    | some lab => some (lab, l.idx)
    | none => none)

/-- First configured section whose name matches a label, case-insensitively. -/
def findSpec (specs : List SectionSpec) (lab : List Char) : Option SectionSpec :=
  specs.find? (fun s => lowerL s.name.toList == lowerL lab)

/-- Matched (spec, header-line) pairs in scan order, before deduplication. -/
def matchedPairs (specs : List SectionSpec) (ds : String) : List (SectionSpec × Nat) :=
  (candsOf ds).filterMap (fun c =>
    match findSpec specs c.1 with
    | some s => some (s, c.2)
    | none => none)

/-- Keep only the first occurrence of each configured section name. -/
def dedupeSecs (seen : List String) : List (SectionSpec × Nat) → List (SectionSpec × Nat)
  | [] => []
  | x :: rest =>
    if seen.contains x.1.name then dedupeSecs seen rest
    else x :: dedupeSecs (x.1.name :: seen) rest

/-- Index of the next detected header after line `i`, if any. -/
def nextHeaderIdx (ds : String) (i : Nat) : Option Nat :=
  ((candsOf ds).map (fun c => c.2)).find? (fun j => Nat.blt i j)

/-- Modelled from the spec: the body of a header at line `i` is the span of
lines strictly between it and the next detected header, or the end of the
docstring. -/
def bodyOf (ds : String) (i : Nat) : List DLine :=
  (dlinesOf ds).filter (fun l =>
    Nat.blt i l.idx &&
      (match nextHeaderIdx ds i with
       | some j => Nat.blt l.idx j
       | none => true))

/-- Matched sections with header position and body, deduplicated, in header
position order. -/
def matchedOf (specs : List SectionSpec) (ds : String) :
    List (SectionSpec × Nat × List DLine) :=
  (dedupeSecs [] (matchedPairs specs ds)).map (fun p => (p.1, p.2, bodyOf ds p.2))

/-- Labels of detected headers that match no configured section. -/
def undefLabelsOf (specs : List SectionSpec) (ds : String) : List (List Char) :=
  (candsOf ds).filterMap (fun c =>
    match findSpec specs c.1 with
    | some _ => none
    | none => some c.1)

/-- Does a body span contain at least one non-blank line? -/
def bodyNonblank (b : List DLine) : Bool := b.any (fun l => !l.chars.isEmpty)

/-- Does the docstring contain any non-blank line at all? -/
def anyNonblankDoc (ds : String) : Bool :=
  (dlinesOf ds).any (fun l => !l.chars.isEmpty)

/-- Exact title case of a configured section name: first character
upper-cased, the rest lower-cased. -/
def titleCaseName (s : SectionSpec) : String :=
  match s.name.toList with
  | [] => ""
  | c :: t => strOf (upperChar c :: lowerL t)

/-! ## Section-type validators (spec section 4.4) -/

/-- Modelled from the spec: prose-filler words whose presence makes a list
entry line be skipped rather than validated. -/
def fillerWords : List String := ["default", "output", "format", "show", "example"]

/-- Does a line contain one of the prose-filler words? -/
def hasFiller (chars : List Char) : Bool :=
  fillerWords.any (fun w => containsList chars w.toList)

/-- Does a line start with a parenthesized type token such as `(ValueError)`? -/
def startsParen (chars : List Char) : Bool :=
  match chars with
  | [] => false
  | c :: t => c == '(' && containsList t [')']

/-- Extract `name (type)` with a following colon from an entry line: the name
is the non-empty single word before the parentheses, the type the text inside
them. -/
def extractNameType (chars : List Char) : Option (String × String) :=
  match breakOn '(' chars with
  | none => none
  | some (before, rest) =>
    let nm := trimC before
    if nm.isEmpty then none
    else if nm.any (fun c => c == ' ') then none
    else match breakOn ')' rest with
      | none => none
      | some (ty, after) =>
        if isPrefixL [':'] (trimC after) then some (strOf nm, strOf (trimC ty))
        else none

/-- Shape test for a `name (type):` entry line. -/
def validNameType (chars : List Char) : Bool := (extractNameType chars).isSome

/-- Does a line have several words before its first colon (wrapped prose)? -/
def multiWordBeforeColon (chars : List Char) : Bool :=
  let before := match breakOn ':' chars with
    | some p => p.1
    | none => chars
  Nat.blt 1 (wordsOf (trimC before)).length

/-- Modelled from the spec: the `list_type` validator.  The state is the
indentation of the first established parenthesized-type entry; while it is
`none` unmatched lines are tolerated.  Deeper lines are continuations of the
prior entry, filler-word lines are prose, and a same-indent entry lacking a
leading parenthesized type after a valid one is flagged, quoting its text. -/
def checkListType (sec : String) : Option Nat → List DLine → List Violation
  | _, [] => []
  | st, l :: rest =>
    if l.chars.isEmpty then checkListType sec st rest
    else match st with
      | none =>
        if startsParen l.chars then checkListType sec (some l.indent) rest
        else checkListType sec none rest
      | some n =>
        if l.indent != n then checkListType sec (some n) rest
        else if hasFiller l.chars then checkListType sec (some n) rest
        else if startsParen l.chars then checkListType sec (some n) rest
        else Violation.requiresParenTypes sec (strOf l.chars) ::
          checkListType sec (some n) rest

/-- Judge one same-indent entry line of a `list_name_and_type` section:
filler lines, valid `name (type):` entries and wrapped prose with several
words before the colon pass; anything else is flagged. -/
def entryVio (sec : String) (l : DLine) : List Violation :=
  if hasFiller l.chars then []
  else if validNameType l.chars then []
  else if multiWordBeforeColon l.chars then []
  else [Violation.requiresParenTypes sec (strOf l.chars)]

/-- Modelled from the spec: the `list_name_and_type` validator.  The state is
the indentation of the first entry line; deeper lines are continuations,
same-indent lines are judged by `entryVio`. -/
def checkLNT (sec : String) : Option Nat → List DLine → List Violation
  | _, [] => []
  | st, l :: rest =>
    if l.chars.isEmpty then checkLNT sec st rest
    else match st with
      | none => entryVio sec l ++ checkLNT sec (some l.indent) rest
      | some n =>
        if l.indent != n then checkLNT sec (some n) rest
        else entryVio sec l ++ checkLNT sec (some n) rest

/-- Format violations of one matched section, dispatched on its type. -/
def sectionFormatVios (s : SectionSpec) (body : List DLine) : List Violation :=
  match s.type with
  | .list_type => checkListType s.name none body
  | .list_name_and_type => checkLNT s.name none body
  | _ => []

/-- Modelled from the spec: admonition-pattern satisfaction for a free-text
spec — a line starting with the configured marker prefix, directive and
quoted title. -/
def admonitionSat (s : SectionSpec) (ds : String) : Bool :=
  match s.admonition with
  | none => false
  | some dir =>
    (dlinesOf ds).any (fun l =>
      isPrefixL ((s.prefixStr ++ " " ++ dir ++ " \"").toList) l.chars)

/-- Modelled from the spec: a case-insensitive admonition-example pattern. -/
def exampleAdmonPresent (ds : String) : Bool :=
  (dlinesOf ds).any (fun l =>
    (isPrefixL "!!!".toList l.chars || isPrefixL "???".toList l.chars) &&
      containsList (lowerL l.chars) "example".toList)

/-- Non-blank matched body for the given spec name. -/
def matchedBodyNonblank (specs : List SectionSpec) (ds : String) (s : SectionSpec) : Bool :=
  (matchedOf specs ds).any (fun x => x.1.name == s.name && bodyNonblank x.2.2)

/-- Modelled from the spec: section-content satisfaction per section type.
Free text is satisfied by the admonition pattern, by a summary docstring with
no formal header at all, by an examples admonition, or by a non-empty located
body; the three list types require a located non-empty body. -/
def satisfiedOf (specs : List SectionSpec) (ds : String) (s : SectionSpec) : Bool :=
  match s.type with
  | .free_text =>
    admonitionSat s ds ||
      (lowerL s.name.toList == "summary".toList && (candsOf ds).isEmpty &&
        anyNonblankDoc ds) ||
      (containsList (lowerL s.name.toList) "example".toList && exampleAdmonPresent ds) ||
      matchedBodyNonblank specs ds s
  | _ => matchedBodyNonblank specs ds s

/-! ## Cross-cutting validator (spec section 4.5) -/

/-- Check one line against one admonition-configured spec for a directive
different from the configured one (spec step 2). -/
def admonDirectiveCheck (s : SectionSpec) (l : DLine) : Option Violation :=
  match s.admonition with
  | none => none
  | some dir =>
    if isPrefixL (s.prefixStr.toList) l.chars &&
        containsList l.chars ('"' :: (titleCaseName s).toList) then
      match (wordsOf l.chars).get? 1 with
      | some w => if w == dir.toList then none else some (.wrongDirective s.name (strOf w) dir)
      | none => none
    else none

/-- Admonition-correctness violations (spec step 2). -/
def admonVios (specs : List SectionSpec) (ds : String) : List Violation :=
  specs.flatMap (fun s => (dlinesOf ds).filterMap (fun l => admonDirectiveCheck s l))

/-- Colon-convention violations (spec step 3): a structured-form label at
base indentation matching a configured name without a trailing colon, and an
admonition title ending with a colon. -/
def colonVios (specs : List SectionSpec) (ds : String) : List Violation :=
  ((dlinesOf ds).filterMap (fun l =>
    if !l.inFence && l.indent == baseOf ds &&
        specs.any (fun s => s.admonition.isNone && lowerL l.chars == lowerL s.name.toList)
    then some (.colonMissing (strOf l.chars))
    else none)) ++
  (specs.flatMap (fun s => (dlinesOf ds).filterMap (fun l =>
    match s.admonition with
    | some _ =>
      if isPrefixL s.prefixStr.toList l.chars &&
          containsList l.chars ((titleCaseName s).toList ++ [':', '"'])
      then some (.colonForbidden (strOf l.chars))
      else none
    | none => none)))

/-- Title-case violations (spec step 4): a matched structured label that is
not exactly the title case of its canonical name. -/
def titleVios (specs : List SectionSpec) (ds : String) : List Violation :=
  (candsOf ds).filterMap (fun c =>
    match findSpec specs c.1 with
    | some s =>
      if c.1 == (titleCaseName s).toList then none
      else some (.badTitleCase (strOf c.1) (titleCaseName s))
    | none => none)

/-- Parenthesized-type violations (spec step 5), delegated per section type. -/
def formatVios (specs : List SectionSpec) (ds : String) : List Violation :=
  (matchedOf specs ds).flatMap (fun x => sectionFormatVios x.1 x.2.2)

/-- Undefined-section violations (spec step 6). -/
def undefinedVios (g : GlobalConfig) (specs : List SectionSpec) (ds : String) :
    List Violation :=
  if g.allow_undefined_sections then []
  else (undefLabelsOf specs ds).map (fun lab => Violation.undefinedSection (strOf lab))

/-- Name and configured order of the matched sections, in header position
order; the ordering walk is a function of this projection alone. -/
def sectionKeys (specs : List SectionSpec) (ds : String) : List (String × Nat) :=
  (matchedOf specs ds).map (fun x => (x.1.name, x.1.order))

/-- Walk the matched sections in position order carrying the largest
configured order seen so far; a section whose order drops below it is out of
order (spec step 7). -/
def orderWalkP (m : Nat) : List (String × Nat) → List Violation
  | [] => []
  | (n, o) :: rest =>
    if o < m then Violation.outOfOrder n :: orderWalkP m rest
    else orderWalkP o rest

/-- Ordering violations (spec step 7). -/
def orderingVios (specs : List SectionSpec) (ds : String) : List Violation :=
  orderWalkP 0 (sectionKeys specs ds)

/-- Required-presence violations (spec step 8). -/
def requiredVios (specs : List SectionSpec) (ds : String) : List Violation :=
  specs.filterMap (fun s =>
    if s.required && !(satisfiedOf specs ds s) then some (.missingRequired s.name)
    else none)

/-- Is the section with the given canonical name matched with content? -/
def populatedSection (specs : List SectionSpec) (ds : String) (nm : String) : Bool :=
  (matchedOf specs ds).any (fun x =>
    lowerL x.1.name.toList == lowerL nm.toList && bodyNonblank x.2.2)

/-- Returns/Yields exclusivity violations (spec step 9). -/
def retYieldVios (specs : List SectionSpec) (ds : String) : List Violation :=
  if populatedSection specs ds "returns" && populatedSection specs ds "yields" then
    [Violation.bothReturnsYields]
  else []

/-- Association lookup of a documented parameter type by name. -/
def lookupTy (n : String) : List (String × String) → Option String
  | [] => none
  | (m, t) :: rest => if m == n then some t else lookupTy n rest

/-- Normalized type text: case-insensitive, whitespace-trimmed. -/
def normTy (s : String) : List Char := lowerL (trimC s.toList)

/-- The Params-equivalent matched section, if any. -/
def paramsSectionOf (specs : List SectionSpec) (ds : String) :
    Option (SectionSpec × Nat × List DLine) :=
  (matchedOf specs ds).find? (fun x =>
    lowerL x.1.name.toList == "params".toList ||
      lowerL x.1.name.toList == "parameters".toList)

/-- Documented parameter types scanned from the Params-equivalent section's
entries. -/
def docTypesOf (specs : List SectionSpec) (ds : String) : List (String × String) :=
  match paramsSectionOf specs ds with
  | none => []
  | some x => x.2.2.filterMap (fun l => extractNameType l.chars)

/-- Modelled from the spec: parameter-type consistency (spec step 10).
Names in both maps are compared on normalized text; an annotated name absent
from the docstring types is reported; unannotated names are never reported. -/
def checkParamTypes (ps : List (String × Option String))
    (docTys : List (String × String)) : List Violation :=
  ps.filterMap (fun p =>
    if p.1 == "self" || p.1 == "cls" then none
    else match p.2 with
    | none => none
    | some sig =>
      match lookupTy p.1 docTys with
      | none => some (.paramTypeMissingDoc p.1 sig)
      | some docTy =>
        if normTy sig == normTy docTy then none
        else some (.paramTypeMismatch p.1 sig docTy))

/-- Parameter-type violations (spec step 10), only when enabled. -/
def paramTypeVios (g : GlobalConfig) (d : Definition) (specs : List SectionSpec)
    (ds : String) : List Violation :=
  if g.validate_param_types then checkParamTypes d.parameters (docTypesOf specs ds)
  else []

/-- Modelled from the spec: all cross-cutting checks of a present docstring,
in the fixed order of spec 4.5 steps 2 through 10. -/
def validateWithDoc (specs : List SectionSpec) (g : GlobalConfig) (d : Definition)
    (ds : String) : List Violation :=
  admonVios specs ds ++ colonVios specs ds ++ titleVios specs ds ++
    formatVios specs ds ++ undefinedVios g specs ds ++ orderingVios specs ds ++
    requiredVios specs ds ++ retYieldVios specs ds ++ paramTypeVios g d specs ds

/-- Modelled from the spec: per-definition validation.  A missing docstring
with `require_docstrings` set yields exactly the missing-docstring violation
and short-circuits; otherwise the docstring checks run. -/
def validateDefinition (cfg : Config) (d : Definition) : List Violation :=
  match d.docstring with
  | none =>
    if cfg.globalConfig.require_docstrings then
      [Violation.missingDocstring (kindName d.kind) d.name]
    else []
  | some ds => validateWithDoc cfg.sections cfg.globalConfig d ds

/-! ## Driver (spec sections 5-7) -/

/-- Modelled from the spec: definition discovery exclusions — private names
are skipped unless `check_private`, and overload stubs are always excluded
so that only the undecorated implementation of an overload group is checked. -/
def discover (g : GlobalConfig) (defs : List Definition) : List Definition :=
  defs.filter (fun d => (g.check_private || !d.isPrivate) && !d.isOverloadStub)

/-- Produce one merged error record for a definition, or nothing when it has
no violations. -/
def checkDefinition (cfg : Config) (path : String) (d : Definition) :
    Option DocstringError :=
  match validateDefinition cfg d with
  | [] => none
  | v :: vs =>
    some { file_path := path, line_number := d.line, item_type := kindName d.kind,
           item_name := d.name,
           message := String.intercalate "; " ((v :: vs).map Violation.render) }

/-- Check every discovered definition of a parsed file. -/
def checkDefs (cfg : Config) (path : String) (defs : List Definition) :
    List DocstringError :=
  (discover cfg.globalConfig defs).filterMap (fun d => checkDefinition cfg path d)

/-- Modelled from the spec: the content of a file as seen by the checker —
either a successfully decoded and parsed list of definitions, undecodable
bytes, or syntactically invalid source. -/
inductive FileContent where
  | utf8 (defs : List Definition)
  | badEncoding
  | badSyntax (msg : String)
deriving DecidableEq

/-- Modelled from the spec: the failure conditions of the two entry points. -/
inductive CheckFailure where
  | fileNotFound
  | invalidFile (msg : String)
  | directoryNotFound
  | cannotDecode (msg : String)
  | syntaxError (msg : String)
deriving DecidableEq

/-- Decode and grammar failures are the ones a directory scan demotes to
file-level errors. -/
def isDecodeOrSyntax : CheckFailure → Bool
  | .cannotDecode _ => true
  | .syntaxError _ => true
  | _ => false

/-- Modelled from the spec: an abstract file system mapping paths to file
contents and directory paths to their (already walked) contained file lists. -/
structure FileSystem where
  files : List (String × FileContent)
  dirs : List (String × List String)

/-- Association-list lookup by path. -/
def assocLookup {α : Type} (k : String) : List (String × α) → Option α
  | [] => none
  | (k', v) :: rest => if k' == k then some v else assocLookup k rest

/-- Content of a path, if it is a regular file. -/
def lookupFile (fs : FileSystem) (p : String) : Option FileContent :=
  assocLookup p fs.files

/-- Contained files of a path, if it is a directory. -/
def lookupDir (fs : FileSystem) (p : String) : Option (List String) :=
  assocLookup p fs.dirs

/-- Does a path name a Python file? -/
def isPyPath (p : String) : Bool := endsWithL p.toList ".py".toList

/-- Modelled from the spec: `check_file` on the looked-up content — a missing
path fails fast, a non-Python file is rejected, undecodable bytes raise the
cannot-decode condition, invalid source raises the syntax error, and a parsed
file is checked.  All failures propagate uncaught to the caller. -/
def checkFileAux (cfg : Config) (path : String) :
    Option FileContent → Except CheckFailure (List DocstringError)
  | none => .error .fileNotFound
  | some c =>
    if !isPyPath path then .error (.invalidFile "File must be a Python file")
    else match c with
      | .badEncoding => .error (.cannotDecode ("Cannot decode file " ++ path))
      | .badSyntax m => .error (.syntaxError m)
      | .utf8 defs => .ok (checkDefs cfg path defs)

/-- Modelled from the spec: the `check_file` entry point. -/
def check_file (cfg : Config) (fs : FileSystem) (path : String) :
    Except CheckFailure (List DocstringError) :=
  checkFileAux cfg path (lookupFile fs path)

/-- One file-level error record (line 0) for a caught per-file failure. -/
def fileLevelError (p : String) (f : CheckFailure) : DocstringError :=
  { file_path := p, line_number := 0, item_type := "file", item_name := p,
    message :=
      match f with
      | .cannotDecode m => m
      | .syntaxError m => "Invalid Python syntax: " ++ m
      | .fileNotFound => "File not found"
      | .invalidFile m => m
      | .directoryNotFound => "Directory not found" }

/-- Modelled from the spec: a directory scan checks one file, catching its
failure and demoting it to a single file-level error instead of aborting. -/
def checkOneInDir (cfg : Config) (fs : FileSystem) (p : String) :
    List DocstringError :=
  match check_file cfg fs p with
  | .ok es => es
  | .error f => [fileLevelError p f]

/-- Per-directory aggregation: only files with at least one error appear. -/
def dirResults (cfg : Config) (fs : FileSystem) (ps : List String) :
    List (String × List DocstringError) :=
  ps.filterMap (fun p =>
    match checkOneInDir cfg fs p with
    | [] => none
    | es => some (p, es))

/-- Modelled from the spec: the `check_directory` entry point.  A path that
is not a directory raises the directory-not-found condition when it exists as
a file and the file-not-found condition otherwise. -/
def check_directory (cfg : Config) (fs : FileSystem) (path : String) :
    Except CheckFailure (List (String × List DocstringError)) :=
  match lookupDir fs path with
  | some ps => .ok (dirResults cfg fs ps)
  | none =>
    match lookupFile fs path with
    | some _ => .error .directoryNotFound
    | none => .error .fileNotFound

end DFC

namespace DFC

/-! ## Concrete configurations and inputs from the repository's test suite -/

/-- Default global configuration (spec section 3 defaults). -/
def gDefault : GlobalConfig := {}

/-- Build a free-text section spec with no admonition. -/
def mkFT (o : Nat) (nm : String) (req : Bool) : SectionSpec :=
  { order := o, name := nm, type := .free_text, required := req,
    admonition := none, prefixStr := "" }

/-- Build a name-and-type list section spec. -/
def mkLNT (o : Nat) (nm : String) (req : Bool) : SectionSpec :=
  { order := o, name := nm, type := .list_name_and_type, required := req,
    admonition := none, prefixStr := "" }

/-- Build a type-list section spec. -/
def mkLT (o : Nat) (nm : String) (req : Bool) : SectionSpec :=
  { order := o, name := nm, type := .list_type, required := req,
    admonition := none, prefixStr := "" }

/-- The simple checker configuration of the test suite. -/
def specsSimple : List SectionSpec :=
  [mkFT 1 "summary" true, mkLNT 2 "params" true, mkLNT 3 "returns" false]

/-- The ordered configuration Summary=1, Params=2, Returns=3 of the
section-order test. -/
def specsOrdered : List SectionSpec :=
  [mkFT 1 "summary" true, mkLNT 2 "params" false, mkFT 3 "returns" false]

/-- The Returns/Yields configuration of the exclusivity test. -/
def specsRY : List SectionSpec :=
  [mkFT 1 "summary" true, mkLNT 2 "returns" false, mkLT 3 "yields" false]

/-- The Params-only configuration of the parameter-type tests. -/
def specsParamsOnly : List SectionSpec := [mkLNT 1 "Params" true]

/-- The summary-plus-raises configuration of the malformed-type test. -/
def specsRaises : List SectionSpec := [mkFT 1 "summary" true, mkLT 2 "raises" false]

/-- The summary-only configuration of the undefined-sections test. -/
def specsSummaryOnly : List SectionSpec := [mkFT 1 "summary" true]

/-! ## Violation-family lemmas -/

/-- An admonition-directive check only ever produces a wrong-directive
violation. -/
lemma admonDirectiveCheck_shape {s : SectionSpec} {l : DLine} {v : Violation}
    (h : admonDirectiveCheck s l = some v) :
    ∃ a b c, v = Violation.wrongDirective a b c := by
  unfold admonDirectiveCheck at h
  repeat' split at h
  all_goals first
    | (simp at h; done)
    | exact ⟨_, _, _, (Option.some.inj h).symm⟩

/-- Members of the admonition-correctness step are never ordering or
parameter-type violations. -/
lemma admonVios_benign {specs : List SectionSpec} {ds : String} {v : Violation}
    (h : v ∈ admonVios specs ds) : v.isOrderVio = false ∧ v.isParamTypeVio = false := by
  simp only [admonVios, List.mem_flatMap, List.mem_filterMap] at h
  obtain ⟨s, _, l, _, hv⟩ := h
  obtain ⟨a, b, c, rfl⟩ := admonDirectiveCheck_shape hv
  exact ⟨rfl, rfl⟩

/-- Members of the colon-convention step are never ordering or
parameter-type violations. -/
lemma colonVios_benign {specs : List SectionSpec} {ds : String} {v : Violation}
    (h : v ∈ colonVios specs ds) : v.isOrderVio = false ∧ v.isParamTypeVio = false := by
  simp only [colonVios, List.mem_append, List.mem_filterMap, List.mem_flatMap] at h
  rcases h with ⟨l, -, hv⟩ | ⟨s, -, l, -, hv⟩ <;>
    (repeat' split at hv) <;>
    first
      | (simp at hv; done)
      | (have he := Option.some.inj hv; subst he; exact ⟨rfl, rfl⟩)

/-- Members of the title-case step are never ordering or parameter-type
violations. -/
lemma titleVios_benign {specs : List SectionSpec} {ds : String} {v : Violation}
    (h : v ∈ titleVios specs ds) : v.isOrderVio = false ∧ v.isParamTypeVio = false := by
  simp only [titleVios, List.mem_filterMap] at h
  obtain ⟨c, -, hv⟩ := h
  repeat' split at hv
  all_goals first
    | (simp at hv; done)
    | (have he := Option.some.inj hv; subst he; exact ⟨rfl, rfl⟩)

/-- The type-list validator only produces paren-type violations. -/
lemma checkListType_shape {sec : String} :
    ∀ (st : Option Nat) (b : List DLine) {v : Violation},
      v ∈ checkListType sec st b → ∃ t, v = Violation.requiresParenTypes sec t := by
  intro st b
  induction b generalizing st with
  | nil => intro v h; simp [checkListType] at h
  | cons l rest ih =>
    intro v h
    unfold checkListType at h
    repeat' split at h
    all_goals first
      | exact ih _ h
      | (rcases List.mem_cons.mp h with rfl | h'
         · exact ⟨_, rfl⟩
         · exact ih _ h')

/-- A single name-and-type entry judgement only produces paren-type
violations. -/
lemma entryVio_shape {sec : String} {l : DLine} {v : Violation}
    (h : v ∈ entryVio sec l) : ∃ t, v = Violation.requiresParenTypes sec t := by
  unfold entryVio at h
  repeat' split at h
  all_goals first
    | (simp at h; done)
    | (rcases List.mem_singleton.mp h with rfl; exact ⟨_, rfl⟩)

/-- The name-and-type list validator only produces paren-type violations. -/
lemma checkLNT_shape {sec : String} :
    ∀ (st : Option Nat) (b : List DLine) {v : Violation},
      v ∈ checkLNT sec st b → ∃ t, v = Violation.requiresParenTypes sec t := by
  intro st b
  induction b generalizing st with
  | nil => intro v h; simp [checkLNT] at h
  | cons l rest ih =>
    intro v h
    unfold checkLNT at h
    repeat' split at h
    all_goals first
      | exact ih _ h
      | (rcases List.mem_append.mp h with h' | h'
         · exact entryVio_shape h'
         · exact ih _ h')

/-- Members of the parenthesized-type step are never ordering or
parameter-type violations. -/
lemma formatVios_benign {specs : List SectionSpec} {ds : String} {v : Violation}
    (h : v ∈ formatVios specs ds) : v.isOrderVio = false ∧ v.isParamTypeVio = false := by
  simp only [formatVios, List.mem_flatMap] at h
  obtain ⟨x, _, hv⟩ := h
  unfold sectionFormatVios at hv
  split at hv
  · obtain ⟨t, rfl⟩ := checkListType_shape _ _ hv; exact ⟨rfl, rfl⟩
  · obtain ⟨t, rfl⟩ := checkLNT_shape _ _ hv; exact ⟨rfl, rfl⟩
  · simp at hv

/-- Members of the undefined-section step are never ordering or
parameter-type violations. -/
lemma undefinedVios_benign {g : GlobalConfig} {specs : List SectionSpec} {ds : String}
    {v : Violation} (h : v ∈ undefinedVios g specs ds) :
    v.isOrderVio = false ∧ v.isParamTypeVio = false := by
  unfold undefinedVios at h
  split at h
  · simp at h
  · simp only [List.mem_map] at h
    obtain ⟨lab, _, rfl⟩ := h
    exact ⟨rfl, rfl⟩

/-- Members of the required-presence step are never ordering or
parameter-type violations. -/
lemma requiredVios_benign {specs : List SectionSpec} {ds : String} {v : Violation}
    (h : v ∈ requiredVios specs ds) : v.isOrderVio = false ∧ v.isParamTypeVio = false := by
  simp only [requiredVios, List.mem_filterMap] at h
  obtain ⟨s, -, hv⟩ := h
  repeat' split at hv
  all_goals first
    | (simp at hv; done)
    | (have he := Option.some.inj hv; subst he; exact ⟨rfl, rfl⟩)

/-- Members of the Returns/Yields step are never ordering or parameter-type
violations. -/
lemma retYieldVios_benign {specs : List SectionSpec} {ds : String} {v : Violation}
    (h : v ∈ retYieldVios specs ds) : v.isOrderVio = false ∧ v.isParamTypeVio = false := by
  unfold retYieldVios at h
  repeat' split at h
  all_goals first
    | (simp at h; done)
    | (rcases List.mem_singleton.mp h with rfl; exact ⟨rfl, rfl⟩)

/-- Every member of the ordering walk is an ordering violation and not a
parameter-type violation. -/
lemma orderWalkP_shape :
    ∀ (m : Nat) (l : List (String × Nat)) {v : Violation}, v ∈ orderWalkP m l →
      v.isOrderVio = true ∧ v.isParamTypeVio = false := by
  intro m l
  induction l generalizing m with
  | nil => intro v h; simp [orderWalkP] at h
  | cons x rest ih =>
    intro v h
    unfold orderWalkP at h
    split at h
    · rcases List.mem_cons.mp h with rfl | h'
      · exact ⟨rfl, rfl⟩
      · exact ih _ h'
    · exact ih _ h

/-- Every member of the parameter-type step is a parameter-type violation and
not an ordering violation. -/
lemma checkParamTypes_shape {ps : List (String × Option String)}
    {docTys : List (String × String)} {v : Violation} (h : v ∈ checkParamTypes ps docTys) :
    v.isOrderVio = false ∧ v.isParamTypeVio = true := by
  simp only [checkParamTypes, List.mem_filterMap] at h
  obtain ⟨p, -, hv⟩ := h
  repeat' split at hv
  all_goals first
    | (simp at hv; done)
    | (have he := Option.some.inj hv; subst he; exact ⟨rfl, rfl⟩)

/-- Members of the parameter-type step (with its gate) keep that shape. -/
lemma paramTypeVios_shape {g : GlobalConfig} {d : Definition} {specs : List SectionSpec}
    {ds : String} {v : Violation} (h : v ∈ paramTypeVios g d specs ds) :
    v.isOrderVio = false ∧ v.isParamTypeVio = true := by
  unfold paramTypeVios at h
  split at h
  · exact checkParamTypes_shape h
  · simp at h

/-- Filtering a docstring's violations to the ordering family yields exactly
the ordering step's output. -/
lemma filter_order_validate (specs : List SectionSpec) (g : GlobalConfig)
    (d : Definition) (ds : String) :
    (validateWithDoc specs g d ds).filter (fun v => v.isOrderVio) =
      orderingVios specs ds := by
  unfold validateWithDoc
  simp only [List.filter_append]
  rw [List.filter_eq_nil_iff.mpr (fun v hv => by simp [(admonVios_benign hv).1]),
    List.filter_eq_nil_iff.mpr (fun v hv => by simp [(colonVios_benign hv).1]),
    List.filter_eq_nil_iff.mpr (fun v hv => by simp [(titleVios_benign hv).1]),
    List.filter_eq_nil_iff.mpr (fun v hv => by simp [(formatVios_benign hv).1]),
    List.filter_eq_nil_iff.mpr (fun v hv => by simp [(undefinedVios_benign hv).1]),
    List.filter_eq_self.mpr (fun v hv => by simp [(orderWalkP_shape _ _ hv).1]),
    List.filter_eq_nil_iff.mpr (fun v hv => by simp [(requiredVios_benign hv).1]),
    List.filter_eq_nil_iff.mpr (fun v hv => by simp [(retYieldVios_benign hv).1]),
    List.filter_eq_nil_iff.mpr (fun v hv => by simp [(paramTypeVios_shape hv).1])]
  simp

/-- Filtering a docstring's violations to the parameter-type family yields
exactly the parameter-type step's output. -/
lemma filter_ptype_validate (specs : List SectionSpec) (g : GlobalConfig)
    (d : Definition) (ds : String) :
    (validateWithDoc specs g d ds).filter (fun v => v.isParamTypeVio) =
      paramTypeVios g d specs ds := by
  unfold validateWithDoc
  simp only [List.filter_append]
  rw [List.filter_eq_nil_iff.mpr (fun v hv => by simp [(admonVios_benign hv).2]),
    List.filter_eq_nil_iff.mpr (fun v hv => by simp [(colonVios_benign hv).2]),
    List.filter_eq_nil_iff.mpr (fun v hv => by simp [(titleVios_benign hv).2]),
    List.filter_eq_nil_iff.mpr (fun v hv => by simp [(formatVios_benign hv).2]),
    List.filter_eq_nil_iff.mpr (fun v hv => by simp [(undefinedVios_benign hv).2]),
    List.filter_eq_nil_iff.mpr (fun v hv => by simp [(orderWalkP_shape _ _ hv).2]),
    List.filter_eq_nil_iff.mpr (fun v hv => by simp [(requiredVios_benign hv).2]),
    List.filter_eq_nil_iff.mpr (fun v hv => by simp [(retYieldVios_benign hv).2]),
    List.filter_eq_self.mpr (fun v hv => by simp [(paramTypeVios_shape hv).2])]
  simp

end DFC

namespace DFC

/-! ## Remaining helper lemmas -/

/-- Boolean test that a list of configured orders never drops below the
running maximum seeded with `m`. -/
def nonDecreasing (m : Nat) : List Nat → Bool
  | [] => true
  | o :: rest => Nat.ble m o && nonDecreasing o rest

/-- The ordering walk reports nothing on a position-ordered list whose
configured orders are non-decreasing from the carried maximum. -/
lemma orderWalkP_nil :
    ∀ (l : List (String × Nat)) (m : Nat),
      nonDecreasing m (l.map Prod.snd) = true → orderWalkP m l = [] := by
  intro l
  induction l with
  | nil => intro m _; rfl
  | cons x rest ih =>
    intro m h
    rcases x with ⟨n, o⟩
    rw [List.map_cons, nonDecreasing, Bool.and_eq_true] at h
    unfold orderWalkP
    rw [if_neg (Nat.not_lt.mpr (Nat.ble_eq.mp h.1))]
    exact ih _ h.2

/-- A detected structured header comes from a non-fenced line and its label
carries none of the excluded characters. -/
lemma headerLabelAt_some {base : Nat} {l : DLine} {lab : List Char}
    (h : headerLabelAt base l = some lab) :
    l.inFence = false ∧ hasExcludedChar lab = false := by
  unfold headerLabelAt at h
  repeat' split at h
  all_goals first
    | (simp at h; done)
    | (have he := Option.some.inj h; subst he; simp_all)

/-- Splitting a directory's file list splits its aggregated results. -/
lemma dirResults_append (cfg : Config) (fs : FileSystem) (a b : List String) :
    dirResults cfg fs (a ++ b) = dirResults cfg fs a ++ dirResults cfg fs b := by
  simp [dirResults, List.filterMap_append]

/-! ## Concrete witness data -/

/-- A function definition carrying no docstring. -/
def dNoDoc : Definition :=
  { kind := .function, name := "test_function", line := 2, decorators := [],
    parameters := [], docstring := none, is_async := false }

/-- A file system holding one empty parsed Python file. -/
def fsA : FileSystem := ⟨[("a.py", .utf8 [])], []⟩

/-- A second file system agreeing with `fsA` on `a.py` but differing
elsewhere. -/
def fsB : FileSystem := ⟨[("a.py", .utf8 []), ("b.py", .badEncoding)], [("d", [])]⟩

/-- A file system with a Python file, a non-Python file and a directory. -/
def fsC10 : FileSystem := ⟨[("f.py", .utf8 []), ("notes.txt", .utf8 [])], [("dd", [])]⟩

/-- A directory with one clean file and one syntactically invalid file. -/
def fsC2 : FileSystem :=
  ⟨[("good.py", .utf8 []), ("bad.py", .badSyntax "unexpected EOF")],
   [("d", ["good.py", "bad.py"])]⟩

/-! ## Claim theorems -/

/-- C7: a definition with no docstring yields zero violations when
`require_docstrings` is off, regardless of any other configured rule, and
exactly the single missing-docstring violation (no further checks) when it is
on. -/
theorem claim_C7 : ∀ (cfg : Config) (d : Definition),
    d.docstring = none →
    (cfg.globalConfig.require_docstrings = false → validateDefinition cfg d = []) ∧
    (cfg.globalConfig.require_docstrings = true →
      validateDefinition cfg d = [Violation.missingDocstring (kindName d.kind) d.name]) := by
  intro cfg d h
  constructor <;> intro hr <;> simp [validateDefinition, h, hr]

/-- C7 witness: the two branches at a concrete docstring-less definition. -/
theorem claim_C7_witness :
    validateDefinition ⟨specsSummaryOnly, { require_docstrings := false }⟩ dNoDoc = [] ∧
    validateDefinition ⟨specsSummaryOnly, gDefault⟩ dNoDoc =
      [Violation.missingDocstring (kindName dNoDoc.kind) dNoDoc.name] :=
  ⟨(claim_C7 ⟨specsSummaryOnly, { require_docstrings := false }⟩ dNoDoc rfl).1 rfl,
   (claim_C7 ⟨specsSummaryOnly, gDefault⟩ dNoDoc rfl).2 rfl⟩

/-- C9: per-file checking is deterministic — a repeated call returns the
identical error list, and the result depends only on the file's content and
the immutable configuration, not on any other file-system state. -/
theorem claim_C9 : ∀ (cfg : Config) (fs : FileSystem) (p : String),
    check_file cfg fs p = check_file cfg fs p ∧
    ∀ fs' : FileSystem, lookupFile fs p = lookupFile fs' p →
      check_file cfg fs p = check_file cfg fs' p := by
  intro cfg fs p
  exact ⟨rfl, fun fs' h => by unfold check_file; rw [h]⟩

/-- C9 witness: determinism at a concrete file across two file systems that
hold identical content for the path. -/
theorem claim_C9_witness :
    check_file ⟨specsSimple, gDefault⟩ fsA "a.py" = check_file ⟨specsSimple, gDefault⟩ fsA "a.py" ∧
    check_file ⟨specsSimple, gDefault⟩ fsA "a.py" = check_file ⟨specsSimple, gDefault⟩ fsB "a.py" :=
  ⟨(claim_C9 ⟨specsSimple, gDefault⟩ fsA "a.py").1,
   (claim_C9 ⟨specsSimple, gDefault⟩ fsA "a.py").2 fsB (by decide)⟩

/-- C10: `check_directory` fails with the directory-not-found condition on an
existing regular file and with file-not-found on a missing path, and
`check_file` fails with file-not-found on a missing path and with the
invalid-file condition ("File must be a Python file") on an existing
non-Python file. -/
theorem claim_C10 : ∀ (cfg : Config) (fs : FileSystem) (p : String),
    ((∃ c, lookupFile fs p = some c) → lookupDir fs p = none →
      check_directory cfg fs p = .error .directoryNotFound) ∧
    (lookupFile fs p = none → check_file cfg fs p = .error .fileNotFound) ∧
    (lookupDir fs p = none → lookupFile fs p = none →
      check_directory cfg fs p = .error .fileNotFound) ∧
    (∀ c, lookupFile fs p = some c → isPyPath p = false →
      check_file cfg fs p = .error (.invalidFile "File must be a Python file")) := by
  intro cfg fs p
  refine ⟨?_, ?_, ?_, ?_⟩
  · rintro ⟨c, hc⟩ hd
    simp [check_directory, hd, hc]
  · intro h
    simp [check_file, checkFileAux, h]
  · intro hd hf
    simp [check_directory, hd, hf]
  · intro c hc hpy
    simp [check_file, checkFileAux, hc, hpy]

/-- C10 witness: all four failure modes at concrete paths. -/
theorem claim_C10_witness :
    check_directory ⟨specsSimple, gDefault⟩ fsC10 "f.py" = .error .directoryNotFound ∧
    check_file ⟨specsSimple, gDefault⟩ fsC10 "missing.py" = .error .fileNotFound ∧
    check_directory ⟨specsSimple, gDefault⟩ fsC10 "missing.py" = .error .fileNotFound ∧
    check_file ⟨specsSimple, gDefault⟩ fsC10 "notes.txt" =
      .error (.invalidFile "File must be a Python file") :=
  ⟨(claim_C10 ⟨specsSimple, gDefault⟩ fsC10 "f.py").1 ⟨.utf8 [], by decide⟩ (by decide),
   (claim_C10 ⟨specsSimple, gDefault⟩ fsC10 "missing.py").2.1 (by decide),
   (claim_C10 ⟨specsSimple, gDefault⟩ fsC10 "missing.py").2.2.1 (by decide) (by decide),
   (claim_C10 ⟨specsSimple, gDefault⟩ fsC10 "notes.txt").2.2.2 (.utf8 []) (by decide) (by decide)⟩

/-- C2: a file whose content cannot be decoded or parsed makes `check_file`
fail uncaught with the decode or syntax condition, while `check_directory`
over a directory containing it catches the failure, records exactly one
file-level error with line number 0 for that file, and still produces the
results of all remaining files. -/
theorem claim_C2 : ∀ (cfg : Config) (fs : FileSystem) (dpath : String)
    (pre post : List String) (bp : String) (c : FileContent),
    lookupDir fs dpath = some (pre ++ bp :: post) →
    lookupFile fs bp = some c →
    (c = FileContent.badEncoding ∨ ∃ m, c = FileContent.badSyntax m) →
    isPyPath bp = true →
    ∃ f, check_file cfg fs bp = .error f ∧ isDecodeOrSyntax f = true ∧
      check_directory cfg fs dpath =
        .ok (dirResults cfg fs pre ++
          (bp, [fileLevelError bp f]) :: dirResults cfg fs post) ∧
      (fileLevelError bp f).line_number = 0 := by
  intro cfg fs dpath pre post bp c hdir hfile hbad hpy
  have hex : ∃ f, check_file cfg fs bp = .error f ∧ isDecodeOrSyntax f = true := by
    rcases hbad with rfl | ⟨m, rfl⟩
    · exact ⟨.cannotDecode ("Cannot decode file " ++ bp),
        by simp [check_file, checkFileAux, hfile, hpy], rfl⟩
    · exact ⟨.syntaxError m, by simp [check_file, checkFileAux, hfile, hpy], rfl⟩
  obtain ⟨f, hcf, hds2⟩ := hex
  refine ⟨f, hcf, hds2, ?_, rfl⟩
  have hone : checkOneInDir cfg fs bp = [fileLevelError bp f] := by
    rw [checkOneInDir, hcf]
  have hsplit : dirResults cfg fs (pre ++ bp :: post) =
      dirResults cfg fs pre ++ (bp, [fileLevelError bp f]) :: dirResults cfg fs post := by
    rw [dirResults_append]
    congr 1
    simp [dirResults, List.filterMap_cons, hone]
  simp [check_directory, hdir, hsplit]

/-- C2 witness: a directory holding a good file and a syntactically invalid
file, instantiating the theorem at the bad file. -/
theorem claim_C2_witness :
    ∃ f, check_file ⟨specsSimple, gDefault⟩ fsC2 "bad.py" = .error f ∧
      isDecodeOrSyntax f = true ∧
      check_directory ⟨specsSimple, gDefault⟩ fsC2 "d" =
        .ok (dirResults ⟨specsSimple, gDefault⟩ fsC2 ["good.py"] ++
          ("bad.py", [fileLevelError "bad.py" f]) ::
            dirResults ⟨specsSimple, gDefault⟩ fsC2 []) ∧
      (fileLevelError "bad.py" f).line_number = 0 :=
  claim_C2 ⟨specsSimple, gDefault⟩ fsC2 "d" ["good.py"] [] "bad.py"
    (.badSyntax "unexpected EOF") (by decide) (by decide)
    (Or.inr ⟨"unexpected EOF", rfl⟩) (by decide)

end DFC

namespace DFC

/-! ## Concrete docstrings and definitions from the test suite -/

/-- The documented overload-implementation docstring of the overload test. -/
def dsC1 : String := "\n    Summary:\n        A function with overloads.\n\n    Params:\n        x (Union[int, str]):\n            Input parameter.\n\n    Returns:\n        (Union[int, str]):\n            Same type as input.\n    "

/-- The overload implementation carrying a complete valid docstring. -/
def implC1 : Definition :=
  { kind := .function, name := "example_function", line := 7, decorators := [],
    parameters := [("x", some "Union[int, str]")], docstring := some dsC1,
    is_async := false }

/-- The overload implementation with its docstring missing. -/
def implC1bad : Definition :=
  { kind := .function, name := "example_function", line := 8, decorators := [],
    parameters := [("x", some "Union[int, str]")], docstring := none,
    is_async := false }

/-- A directly decorated overload stub. -/
def stubC1a : Definition :=
  { kind := .function, name := "example_function", line := 4,
    decorators := ["overload"], parameters := [("x", some "int")],
    docstring := none, is_async := false }

/-- A module-qualified overload stub. -/
def stubC1b : Definition :=
  { kind := .function, name := "example_function", line := 6,
    decorators := ["typing.overload"], parameters := [("x", some "str")],
    docstring := none, is_async := true }

/-- File system holding the two overload scenarios as parsed files. -/
def fsC1 : FileSystem :=
  ⟨[("test.py", .utf8 [stubC1a, stubC1b, implC1]),
    ("bad.py", .utf8 [stubC1a, stubC1b, implC1bad])], []⟩

/-- The wrong-order docstring of the section-order test. -/
def dsC3bad : String := "\n    This function has sections in wrong order.\n\n    Returns:\n        Something\n\n    Params:\n        param1:\n            A parameter\n    "

/-- A well-ordered variant of the section-order docstring. -/
def dsC3good : String := "\n    Good order.\n\n    Params:\n        param1:\n            A parameter\n\n    Returns:\n        Something\n    "

/-- The definition carrying the wrong-order docstring. -/
def dC3bad : Definition :=
  { kind := .function, name := "bad_order_function", line := 2, decorators := [],
    parameters := [("param1", none)], docstring := some dsC3bad, is_async := false }

/-- The definition carrying the well-ordered docstring. -/
def dC3good : Definition :=
  { kind := .function, name := "good_order_function", line := 2, decorators := [],
    parameters := [("param1", none)], docstring := some dsC3good, is_async := false }

/-- The parameter-type-mismatch docstring (`name (int)` against `name: str`). -/
def dsC4bad : String := "\n    Example function with parameters.\n\n    Params:\n        name (int):\n            The name parameter.\n    "

/-- The matching-parameter-type docstring (`name (str)`). -/
def dsC4good : String := "\n    Example function with parameters.\n\n    Params:\n        name (str):\n            The name parameter.\n    "

/-- Definition with signature annotation `name: str` and mismatching doc. -/
def dC4bad : Definition :=
  { kind := .function, name := "example_function", line := 2, decorators := [],
    parameters := [("name", some "str")], docstring := some dsC4bad, is_async := false }

/-- Definition with signature annotation `name: str` and matching doc. -/
def dC4good : Definition :=
  { kind := .function, name := "example_function", line := 2, decorators := [],
    parameters := [("name", some "str")], docstring := some dsC4good, is_async := false }

/-- Global configuration with parameter-type validation switched on. -/
def gVPT : GlobalConfig := { validate_param_types := true }

/-- A deeper-indented continuation line below a type entry at indent 8. -/
def lCont : DLine :=
  { idx := 5, indent := 12, chars := "continuation of the prior entry".toList,
    inFence := false }

/-- A same-indent line containing prose-filler words. -/
def lFill : DLine :=
  { idx := 5, indent := 8, chars := "show example output by default".toList,
    inFence := false }

/-- The malformed same-indent entry of the malformed-type test. -/
def lBadFmt : DLine :=
  { idx := 5, indent := 8,
    chars := "BadFormatError: This is malformed - no parentheses.".toList,
    inFence := false }

/-- The undefined-sections docstring: fenced code blocks and path-like or
backtick-carrying labels that must all be ignored. -/
def dsC6 : String := "\n    Summary:\n        Function with code blocks that should be ignored.\n\n    ```python\n    def example():\n        pass\n    ```\n\n    ```sh\n    echo \"hello\"\n    ```\n\n    Some.Path.With.Dots:\n        Should be ignored due to dots.\n\n    /path/to/file:\n        Should be ignored due to slashes.\n\n    back\\\\slash\\\\path:\n        Should be ignored due to backslashes.\n\n    `inline_code`:\n        Should be ignored due to backticks.\n    "

/-- The definition carrying the undefined-sections docstring. -/
def dC6 : Definition :=
  { kind := .function, name := "test_function", line := 2, decorators := [],
    parameters := [], docstring := some dsC6, is_async := false }

/-- A docstring with one genuinely undefined header label. -/
def dsUndef : String := "\nFoo:\n    bar\n"

/-- The Returns-plus-Yields docstring of the exclusivity test. -/
def dsC8 : String := "\n    Function with both returns and yields sections.\n\n    Returns:\n        (str):\n            Some return value\n\n    Yields:\n        (int):\n            Some yielded value\n    "

/-- The definition carrying the Returns-plus-Yields docstring. -/
def dC8 : Definition :=
  { kind := .function, name := "function_with_both_returns_and_yields", line := 2,
    decorators := [], parameters := [], docstring := some dsC8, is_async := false }

end DFC

namespace DFC

/-- C1: in a file of overload stubs (direct or module-qualified marker, any
async flag or kind) followed by one undecorated public implementation of the
same name, a valid implementation docstring gives zero errors from
`check_file`, and a missing implementation docstring gives exactly one error
anchored to the implementation's line, never a stub's line. -/
theorem claim_C1 : ∀ (cfg : Config) (fs : FileSystem) (path : String)
    (stubs : List Definition) (impl : Definition),
    (∀ s ∈ stubs, s.isOverloadStub = true) →
    impl.isOverloadStub = false →
    impl.isPrivate = false →
    lookupFile fs path = some (.utf8 (stubs ++ [impl])) →
    isPyPath path = true →
    (validateDefinition cfg impl = [] → check_file cfg fs path = .ok []) ∧
    (impl.docstring = none → cfg.globalConfig.require_docstrings = true →
      (∀ s ∈ stubs, s.line ≠ impl.line) →
      ∃ e, check_file cfg fs path = .ok [e] ∧ e.line_number = impl.line ∧
        ∀ s ∈ stubs, e.line_number ≠ s.line) := by
  intro cfg fs path stubs impl hstubs himpl hpriv hfs hpy
  have hdisc : discover cfg.globalConfig (stubs ++ [impl]) = [impl] := by
    unfold discover
    rw [List.filter_append,
      List.filter_eq_nil_iff.mpr (fun s hs => by simp [hstubs s hs]),
      List.nil_append]
    simp [himpl, hpriv]
  have hcf : check_file cfg fs path = .ok (checkDefs cfg path (stubs ++ [impl])) := by
    simp [check_file, checkFileAux, hfs, hpy]
  constructor
  · intro hval
    rw [hcf, checkDefs, hdisc]
    simp [checkDefinition, hval]
  · intro hdoc hreq hlines
    have hval : validateDefinition cfg impl =
        [Violation.missingDocstring (kindName impl.kind) impl.name] := by
      simp [validateDefinition, hdoc, hreq]
    refine ⟨{ file_path := path, line_number := impl.line,
              item_type := kindName impl.kind, item_name := impl.name,
              message := String.intercalate "; "
                ([Violation.missingDocstring (kindName impl.kind) impl.name].map
                  Violation.render) },
            ?_, rfl, ?_⟩
    · rw [hcf, checkDefs, hdisc]
      simp only [List.filterMap_cons, List.filterMap_nil, checkDefinition, hval]
    · intro s hs
      simpa using (hlines s hs).symm

set_option maxRecDepth 100000 in
/-- C1 witness: the two overload scenarios of the test suite, at the simple
configuration. -/
theorem claim_C1_witness :
    check_file ⟨specsSimple, gDefault⟩ fsC1 "test.py" = .ok [] ∧
    ∃ e, check_file ⟨specsSimple, gDefault⟩ fsC1 "bad.py" = .ok [e] ∧
      e.line_number = implC1bad.line ∧
      ∀ s ∈ [stubC1a, stubC1b], e.line_number ≠ s.line := by
  constructor
  · exact (claim_C1 ⟨specsSimple, gDefault⟩ fsC1 "test.py" [stubC1a, stubC1b] implC1
      (by decide) (by decide) (by decide) (by decide) (by decide)).1 (by decide)
  · exact (claim_C1 ⟨specsSimple, gDefault⟩ fsC1 "bad.py" [stubC1a, stubC1b] implC1bad
      (by decide) (by decide) (by decide) (by decide) (by decide)).2 rfl rfl (by decide)

/-- C3: with sections Summary=1, Params=2, Returns=3, a docstring presenting
a populated `Returns:` header before a populated `Params:` header yields
exactly one out-of-order violation, naming `params` — the earlier-declared
section found later; a docstring presenting the found sections in
non-decreasing configured order yields no ordering violation. -/
theorem claim_C3 : ∀ (g : GlobalConfig) (d : Definition) (ds : String),
    d.docstring = some ds →
    ((sectionKeys specsOrdered ds = [("returns", 3), ("params", 2)] ∨
      sectionKeys specsOrdered ds = [("summary", 1), ("returns", 3), ("params", 2)]) →
     populatedSection specsOrdered ds "returns" = true →
     populatedSection specsOrdered ds "params" = true →
     (validateDefinition ⟨specsOrdered, g⟩ d).filter (fun v => v.isOrderVio) =
       [Violation.outOfOrder "params"]) ∧
    (nonDecreasing 0 ((sectionKeys specsOrdered ds).map Prod.snd) = true →
     (validateDefinition ⟨specsOrdered, g⟩ d).filter (fun v => v.isOrderVio) = []) := by
  intro g d ds hds
  have hval : validateDefinition ⟨specsOrdered, g⟩ d = validateWithDoc specsOrdered g d ds := by
    simp [validateDefinition, hds]
  constructor
  · intro hk _ _
    rw [hval, filter_order_validate, orderingVios]
    rcases hk with hk | hk <;> rw [hk] <;> decide
  · intro hch
    rw [hval, filter_order_validate, orderingVios]
    exact orderWalkP_nil _ _ hch

set_option maxRecDepth 100000 in
/-- C3 witness: the wrong-order and well-ordered docstrings of the
section-order test. -/
theorem claim_C3_witness :
    (validateDefinition ⟨specsOrdered, gDefault⟩ dC3bad).filter (fun v => v.isOrderVio) =
      [Violation.outOfOrder "params"] ∧
    (validateDefinition ⟨specsOrdered, gDefault⟩ dC3good).filter (fun v => v.isOrderVio) = [] := by
  constructor
  · exact (claim_C3 gDefault dC3bad dsC3bad rfl).1 (Or.inl (by decide)) (by decide) (by decide)
  · exact (claim_C3 gDefault dC3good dsC3good rfl).2 (by decide)

/-- C4: with parameter-type validation on, a signature annotation `name: str`
against a docstring Params entry declaring a type that differs after
case-insensitive, whitespace-trimmed normalization yields exactly one
parameter-type violation — the mismatch naming `name` — and a docstring type
equal after normalization yields zero parameter-type violations. -/
theorem claim_C4 : ∀ (g : GlobalConfig) (d : Definition) (ds dty : String),
    g.validate_param_types = true →
    d.docstring = some ds →
    d.parameters = [("name", some "str")] →
    docTypesOf specsParamsOnly ds = [("name", dty)] →
    ((normTy "str" == normTy dty) = false →
      (validateDefinition ⟨specsParamsOnly, g⟩ d).filter (fun v => v.isParamTypeVio) =
        [Violation.paramTypeMismatch "name" "str" dty]) ∧
    ((normTy "str" == normTy dty) = true →
      (validateDefinition ⟨specsParamsOnly, g⟩ d).filter (fun v => v.isParamTypeVio) = []) := by
  intro g d ds dty hvpt hds hps hdt
  have hval : validateDefinition ⟨specsParamsOnly, g⟩ d =
      validateWithDoc specsParamsOnly g d ds := by
    simp [validateDefinition, hds]
  have hb : (validateDefinition ⟨specsParamsOnly, g⟩ d).filter (fun v => v.isParamTypeVio) =
      checkParamTypes [("name", some "str")] [("name", dty)] := by
    rw [hval, filter_ptype_validate, paramTypeVios, hps, hdt]
    simp [hvpt]
  constructor <;> intro hne
  · have hne' : ¬ normTy "str" = normTy dty := by simpa using hne
    rw [hb]
    simp [checkParamTypes, lookupTy, hne']
  · have hne' : normTy "str" = normTy dty := by simpa using hne
    rw [hb]
    simp [checkParamTypes, lookupTy, hne']

set_option maxRecDepth 100000 in
/-- C4 witness: the mismatching (`name (int)`) and matching (`name (str)`)
docstrings of the parameter-type tests. -/
theorem claim_C4_witness :
    (validateDefinition ⟨specsParamsOnly, gVPT⟩ dC4bad).filter (fun v => v.isParamTypeVio) =
      [Violation.paramTypeMismatch "name" "str" "int"] ∧
    (validateDefinition ⟨specsParamsOnly, gVPT⟩ dC4good).filter (fun v => v.isParamTypeVio) = [] := by
  constructor
  · exact (claim_C4 gVPT dC4bad dsC4bad "int" rfl rfl rfl (by decide)).1 (by decide)
  · exact (claim_C4 gVPT dC4good dsC4good "str" rfl rfl rfl (by decide)).2 (by decide)

/-- C5: in a type-list section, a non-blank line is skipped when it is a
deeper-indented continuation of the prior entry, when it contains a
prose-filler word, or when no parenthesized type has been established yet;
but a same-indent entry lacking a leading parenthesized type after an
established one is flagged with a requires-parenthesized-types violation
quoting the offending line's text. -/
theorem claim_C5 : ∀ (sec : String) (n : Nat) (l : DLine) (rest : List DLine),
    l.chars.isEmpty = false →
    (n < l.indent →
      checkListType sec (some n) (l :: rest) = checkListType sec (some n) rest) ∧
    (l.indent = n → hasFiller l.chars = true →
      checkListType sec (some n) (l :: rest) = checkListType sec (some n) rest) ∧
    (startsParen l.chars = false →
      checkListType sec none (l :: rest) = checkListType sec none rest) ∧
    (l.indent = n → hasFiller l.chars = false → startsParen l.chars = false →
      checkListType sec (some n) (l :: rest) =
        Violation.requiresParenTypes sec (strOf l.chars) ::
          checkListType sec (some n) rest) := by
  intro sec n l rest hne
  refine ⟨?_, ?_, ?_, ?_⟩
  · intro hlt
    have h2 : (l.indent != n) = true := by
      simp only [bne_iff_ne, ne_eq]
      omega
    simp [checkListType, hne, h2]
  · intro hin hfill
    have h2 : (l.indent != n) = false := by simp [hin]
    simp [checkListType, hne, h2, hfill]
  · intro hpar
    simp [checkListType, hne, hpar]
  · intro hin hfill hpar
    have h2 : (l.indent != n) = false := by simp [hin]
    simp [checkListType, hne, h2, hfill, hpar]

set_option maxRecDepth 100000 in
/-- C5 witness: the skip and flag behaviors at concrete lines, including the
malformed entry of the malformed-type test. -/
theorem claim_C5_witness :
    checkListType "raises" (some 8) [lCont] = checkListType "raises" (some 8) [] ∧
    checkListType "raises" (some 8) [lFill] = checkListType "raises" (some 8) [] ∧
    checkListType "raises" none [lBadFmt] = checkListType "raises" none [] ∧
    checkListType "raises" (some 8) [lBadFmt] =
      Violation.requiresParenTypes "raises" (strOf lBadFmt.chars) ::
        checkListType "raises" (some 8) [] := by
  refine ⟨(claim_C5 "raises" 8 lCont [] (by decide)).1 (by decide),
    (claim_C5 "raises" 8 lFill [] (by decide)).2.1 (by decide) (by decide),
    (claim_C5 "raises" 8 lBadFmt [] (by decide)).2.2.1 (by decide),
    (claim_C5 "raises" 8 lBadFmt [] (by decide)).2.2.2 (by decide) (by decide) (by decide)⟩

set_option maxRecDepth 100000 in
/-- C6: every reported undefined-section violation stems from a detected
non-fenced header candidate whose label carries no `.`, `/`, `\` or backtick
— so a candidate with such a character, or one lying inside a fenced code
block, is never reported — and the undefined-sections test docstring, holding
only excluded candidates plus the configured section, yields zero errors. -/
theorem claim_C6 : ∀ (specs : List SectionSpec) (g : GlobalConfig) (ds : String)
    (v : Violation),
    v ∈ undefinedVios g specs ds →
    (∃ lab, v = Violation.undefinedSection (strOf lab) ∧
      hasExcludedChar lab = false ∧
      ∃ l, l ∈ dlinesOf ds ∧ l.inFence = false ∧
        headerLabelAt (baseOf ds) l = some lab) ∧
    validateDefinition ⟨specsSummaryOnly, gDefault⟩ dC6 = [] := by
  intro specs g ds v hv
  refine ⟨?_, by decide⟩
  unfold undefinedVios at hv
  split at hv
  · simp at hv
  · simp only [List.mem_map] at hv
    obtain ⟨lab, hlab, rfl⟩ := hv
    simp only [undefLabelsOf, List.mem_filterMap] at hlab
    obtain ⟨c, hc, hnone⟩ := hlab
    simp only [candsOf, List.mem_filterMap] at hc
    obtain ⟨l, hl, hmatch⟩ := hc
    cases hh : headerLabelAt (baseOf ds) l with
    | none =>
      rw [hh] at hmatch
      simp at hmatch
    | some lab' =>
      rw [hh] at hmatch
      simp only [Option.some.injEq] at hmatch
      obtain rfl := hmatch
      cases hf : findSpec specs lab' with
      | some s =>
        rw [hf] at hnone
        simp at hnone
      | none =>
        rw [hf] at hnone
        simp only [Option.some.injEq] at hnone
        obtain rfl := hnone
        obtain ⟨hfence, hexcl⟩ := headerLabelAt_some hh
        exact ⟨lab', rfl, hexcl, l, hl, hfence, hh⟩

set_option maxRecDepth 100000 in
/-- C6 witness: instantiated at a docstring with one genuinely undefined
label, whose reported candidate is shown clean, alongside the zero-error
evaluation of the code-block-and-paths docstring. -/
theorem claim_C6_witness :
    (∃ lab, (Violation.undefinedSection "Foo" : Violation) =
        Violation.undefinedSection (strOf lab) ∧
      hasExcludedChar lab = false ∧
      ∃ l, l ∈ dlinesOf dsUndef ∧ l.inFence = false ∧
        headerLabelAt (baseOf dsUndef) l = some lab) ∧
    validateDefinition ⟨specsSummaryOnly, gDefault⟩ dC6 = [] :=
  claim_C6 specsSummaryOnly gDefault dsUndef (Violation.undefinedSection "Foo") (by decide)

/-- C8: a docstring whose Returns and Yields sections are both present with
content receives the Returns/Yields-exclusivity violation, whose message
contains "cannot have both Returns and Yields". -/
theorem claim_C8 : ∀ (specs : List SectionSpec) (g : GlobalConfig) (d : Definition)
    (ds : String),
    d.docstring = some ds →
    populatedSection specs ds "returns" = true →
    populatedSection specs ds "yields" = true →
    Violation.bothReturnsYields ∈ validateDefinition ⟨specs, g⟩ d ∧
    containsList (Violation.render Violation.bothReturnsYields).toList
      "cannot have both Returns and Yields".toList = true := by
  intro specs g d ds hds hr hy
  refine ⟨?_, by decide⟩
  have hry : retYieldVios specs ds = [Violation.bothReturnsYields] := by
    simp [retYieldVios, hr, hy]
  simp [validateDefinition, hds, validateWithDoc, hry]

set_option maxRecDepth 100000 in
/-- C8 witness: the Returns-plus-Yields docstring of the exclusivity test. -/
theorem claim_C8_witness :
    Violation.bothReturnsYields ∈ validateDefinition ⟨specsRY, gDefault⟩ dC8 ∧
    containsList (Violation.render Violation.bothReturnsYields).toList
      "cannot have both Returns and Yields".toList = true :=
  claim_C8 specsRY gDefault dC8 dsC8 rfl (by decide) (by decide)

end DFC
